import Mathlib

/-!
Shallow embedding of the channel-search core of `src/parser/Парсер.py`
(fuzzy keyword matcher, relevant-sentence extractor, result cache, channel
searcher, result formatter), together with theorems settling the claims
about it.  Python strings are modelled as `String` (lists of code points),
machine integers as `Nat`/`Int`, the Telethon client and the on-disk cache
as explicit state values, and Python exceptions as `Except` values.
-/

/-- Python `\s` / `str.split()` whitespace for the ASCII range (the inputs
relevant to the claims are ASCII/Cyrillic; none of the exotic Unicode
whitespace characters occur in them). -/
def isPySpace (c : Char) : Bool :=
  c = ' ' || c = '\t' || c = '\n' || c = '\r' || c = '\x0b' || c = '\x0c'

/-- Python `str.lower` on one character, for the ASCII and Cyrillic ranges
(the source lower-cases Russian keywords and message words). -/
def lowerChar (c : Char) : Char :=
  if 0x410 ≤ c.toNat ∧ c.toNat ≤ 0x42F then Char.ofNat (c.toNat + 0x20)
  else if c.toNat = 0x401 then Char.ofNat 0x451
  else c.toLower

/-- Python `str.lower`. -/
def lowerStr (s : String) : String :=
  ⟨s.data.map lowerChar⟩

/-- Python `s[:n]` for a non-negative `n`. -/
def strTake (s : String) (n : Nat) : String :=
  ⟨s.data.take n⟩

/-- Python `str.strip()` (remove leading and trailing whitespace). -/
def pyStrip (s : String) : String :=
  ⟨((s.data.dropWhile isPySpace).reverse.dropWhile isPySpace).reverse⟩

/-- Maximal runs of characters satisfying `keep`; models both Python
`str.split()` (with `keep = not whitespace`) and `re.findall(r'\b\w+\b', s)`
(with `keep = word character`). -/
def runsAux (keep : Char → Bool) : List Char → List Char → List (List Char)
  | [], acc => if acc.isEmpty then [] else [acc.reverse]
  | c :: rest, acc =>
    if keep c then runsAux keep rest (c :: acc)
    else if acc.isEmpty then runsAux keep rest []
    else acc.reverse :: runsAux keep rest []

/-- Python `\w` word characters, for the ASCII and Cyrillic ranges. -/
def isWordChar (c : Char) : Bool :=
  c.isAlphanum || c = '_' || (0x400 ≤ c.toNat && c.toNat ≤ 0x4FF)

/-- Python `" ".join(sentence.split())`: collapse whitespace runs. -/
def normalizeWs (s : String) : String :=
  String.intercalate " " ((runsAux (fun c => !isPySpace c) s.data []).map fun l => (⟨l⟩ : String))

/-- Python `re.split(r'(?<=[.!?])\s+', text)`: cut the character stream at
every whitespace run immediately preceded by `.`, `!` or `?`; the whitespace
run is consumed.  `acc` holds the current sentence reversed; the leading
flag is true while inside the separator whitespace run (so further
whitespace extends the separator instead of the sentence). -/
def splitSentencesAux : Bool → List Char → List Char → List (List Char)
  | _, [], acc => [acc.reverse]
  | true, c :: rest, acc =>
    if isPySpace c then splitSentencesAux true rest acc
    else splitSentencesAux false rest (c :: acc)
  | false, c :: rest, acc =>
    if (acc.head? == some '.' || acc.head? == some '!' || acc.head? == some '?')
        && isPySpace c then
      acc.reverse :: splitSentencesAux true rest []
    else
      splitSentencesAux false rest (c :: acc)

/-- Sentence candidates of `extract_relevant_sentences`:
`re.split(r'(?<=[.!?])\s+', text.strip())`. -/
def splitSentences (text : String) : List String :=
  (splitSentencesAux false (pyStrip text).data []).map fun l => (⟨l⟩ : String)

/-- Lists-of-characters version of Python `str.startswith` (used to build
the substring test). -/
def startsWithList : List Char → List Char → Bool
  | [], _ => true
  | _ :: _, [] => false
  | a :: as, b :: bs => a = b && startsWithList as bs

/-- Python `needle in hay` on strings (contiguous substring). -/
def containsSub (needle : List Char) : List Char → Bool
  | [] => needle.isEmpty
  | c :: rest => startsWithList needle (c :: rest) || containsSub needle rest

/-- Python `str.endswith`. -/
def endsWithList (suf l : List Char) : Bool :=
  startsWithList suf.reverse l.reverse

/-- The fixed list of Russian inflectional endings of `fuzzy_match_word`
(`Парсер.py` line 398), duplicates included, in source order. -/
def endings : List String :=
  ["а", "ы", "ов", "ей", "ам", "ами", "ах", "ом", "ого", "ому", "им", "ем",
   "ого", "ему", "ими", "ими", "ой", "ую", "ю", "ие", "их", "им", "ыми",
   "ая", "яя", "ое", "ее", "ие", "ей", "ую", "юю", "ие", "их", "им"]

/-- The morphological suffix heuristic of `fuzzy_match_word`: for some
ending `e`, either `wl == kl + e`, or `kl` ends with `e` and
`wl == kl[:-len(e)]`. -/
def suffixHeuristic (wl kl : String) : Bool :=
  endings.any fun e =>
    wl = kl ++ e ||
      (endsWithList e.data kl.data && wl = strTake kl (kl.length - e.length))

/-- One step of the rolling-row Levenshtein computation: given `c1`, the
remaining characters of `s2`, the tail of the previous row aligned with
them, and the last entry `cur` of the current row, produce the rest of the
current row (Python inner `for j, c2 in enumerate(s2)` loop). -/
def levInner (c1 : Char) : List Char → List Nat → Nat → List Nat
  | [], _, cur => [cur]
  | _ :: _, [], cur => [cur]
  | c2 :: rest, p0 :: ptail, cur =>
    let p1 := ptail.headD 0
    let v := min (min (p1 + 1) (cur + 1)) (p0 + (if c1 = c2 then 0 else 1))
    cur :: levInner c1 rest ptail v

/-- Outer `for i, c1 in enumerate(s1)` loop of the Levenshtein computation;
`prev` is `previous_row`, `i` the number of rows already produced. -/
def levLoop (s2 : List Char) : List Char → List Nat → Nat → List Nat
  | [], prev, _ => prev
  | c1 :: rest, prev, i => levLoop s2 rest (levInner c1 s2 prev (i + 1)) (i + 1)

/-- The body of `levenshtein_distance` after the argument swap: returns
`len(s1)` when `s2` is empty, otherwise the last entry of the final row. -/
def levBody (s1 s2 : List Char) : Nat :=
  if s2.length = 0 then s1.length
  else (levLoop s2 s1 (List.range (s2.length + 1)) 0).getLastD 0

/-- `levenshtein_distance` from `fuzzy_match_word` (`Парсер.py` lines
408–424): swap so the first argument is the longer one, then run the
dynamic program. -/
def levenshtein_distance (s1 s2 : List Char) : Nat :=
  if s1.length < s2.length then levBody s2 s1 else levBody s1 s2

/-- `fuzzy_match_word` (`Парсер.py` lines 383–430): exact match, substring,
suffix heuristic, then bounded edit distance (only when `len(keyword) <= 6`
and `len(word) <= 8`, matching when the distance is at most 2). -/
def fuzzy_match_word (word keyword : String) : Bool :=
  let wl := lowerStr word
  let kl := lowerStr keyword
  if wl = kl then true
  else if containsSub kl.data wl.data then true
  else if suffixHeuristic wl kl then true
  else if keyword.length ≤ 6 && word.length ≤ 8 then
    decide (levenshtein_distance wl.data kl.data ≤ 2)
  else false

/-- Word tokens of a sentence as used by `extract_relevant_sentences`:
`re.findall(r'\b\w+\b', sentence.lower().strip())`. -/
def sentenceTokens (s : String) : List String :=
  (runsAux isWordChar (pyStrip (lowerStr s)).data []).map fun l => (⟨l⟩ : String)

/-- The `has_match` loop of `extract_relevant_sentences`: some token of the
sentence fuzzy-matches some keyword. -/
def sentenceHasMatch (s : String) (keywords : List String) : Bool :=
  (sentenceTokens s).any fun w => keywords.any fun kw => fuzzy_match_word w kw

/-- The tail of the sentence loop of `extract_relevant_sentences`:
whitespace-normalize the sentence and keep it only when non-empty and
strictly longer than 10 characters. -/
def keepSentence (s : String) : Option String :=
  let clean := normalizeWs s
  if clean ≠ "" ∧ 10 < clean.length then some clean else none

/-- `extract_relevant_sentences` (`Парсер.py` lines 433–468). -/
def extract_relevant_sentences (text : String) (keywords : List String) : List String :=
  if text = "" ∨ keywords = [] then []
  else
    (splitSentences text).filterMap fun s =>
      if pyStrip (lowerStr s) = "" then none
      else if sentenceHasMatch s keywords then keepSentence s
      else none

/-- The length cap of `validate_keywords`: keywords longer than 50
characters are cut to their first 50 characters. -/
def truncateKw (k : String) : String :=
  if 50 < k.length then strTake k 50 else k

/-- The loop of `validate_keywords`: strip, drop when shorter than 2,
truncate when longer than 50. -/
def validateKeywordsGo : List String → List String
  | [] => []
  | kw :: rest =>
    let kw := pyStrip kw
    if kw.length < 2 then validateKeywordsGo rest
    else truncateKw kw :: validateKeywordsGo rest

/-- `validate_keywords` (`Парсер.py` lines 280–294). -/
def validate_keywords (keywords : List String) : List String :=
  if keywords = [] then [] else (validateKeywordsGo keywords).take 10

/-- `SearchResult` (`Парсер.py` lines 261–268). -/
structure SearchResult where
  channel : String
  message_id : Int
  date : String
  snippet : String
  link : String
deriving DecidableEq, Repr

/-- The per-result dictionary written by `save_cached_results` (the five
keys `channel`, `message_id`, `date`, `snippet`, `link`). -/
structure ResultRecord where
  channel : String
  message_id : Int
  date : String
  snippet : String
  link : String
deriving DecidableEq, Repr

/-- `save_cached_results`: turn a `SearchResult` into its dictionary. -/
def SearchResult.toRecord (r : SearchResult) : ResultRecord :=
  ⟨r.channel, r.message_id, r.date, r.snippet, r.link⟩

/-- `load_cached_results`: `SearchResult(**item)`. -/
def SearchResult.ofRecord (r : ResultRecord) : SearchResult :=
  ⟨r.channel, r.message_id, r.date, r.snippet, r.link⟩

/-- The JSON object written to one cache file: a write timestamp
(`time.time()`, modelled in whole seconds as `Int`) and the result
dictionaries. -/
structure CacheEntry where
  timestamp : Int
  results : List ResultRecord

/-- The cache directory: one optional record per key (one `.json` file per
key; well-formed by construction, so the parse-failure fallback of the
source never fires in the model). -/
def CacheStore : Type := String → Option CacheEntry

/-- `CACHE_TTL` (`Парсер.py` line 79): one hour, in seconds. -/
def CACHE_TTL : Int := 3600

/-- `load_cached_results` (`Парсер.py` lines 651–678).  `now` is the value
of `time.time()` at the call.  Returns the loaded results (or `none`) and
the cache directory afterwards (an expired entry is unlinked). -/
def load_cached_results (store : CacheStore) (now : Int) (key : String) :
    Option (List SearchResult) × CacheStore :=
  match store key with
  | none => (none, store)
  | some entry =>
    if CACHE_TTL < now - entry.timestamp then
      (none, fun k => if k = key then none else store k)
    else
      (some (entry.results.map SearchResult.ofRecord), store)

/-- `save_cached_results` (`Парсер.py` lines 681–708): overwrite the entry
for `key` with the current timestamp and the result dictionaries. -/
def save_cached_results (store : CacheStore) (now : Int) (key : String)
    (results : List SearchResult) : CacheStore :=
  fun k => if k = key then some ⟨now, results.map SearchResult.toRecord⟩ else store k

/-- `get_cache_key` (`Парсер.py` lines 640–648): sort both lists and pack
them with the limit into one canonical string.  The source additionally
feeds this string through `hashlib.md5` purely to compact the key; the hash
is injective on the inputs that occur, so the model uses the canonical
string itself as the key. -/
def get_cache_key (channels keywords : List String) (limit : Nat) : String :=
  String.intercalate "," (channels.mergeSort (fun a b => a ≤ b)) ++ "_" ++
    String.intercalate "," (keywords.mergeSort (fun a b => a ≤ b)) ++ "_" ++ toString limit

/-- A message yielded by `iter_messages`: its id, text (`message.message or
""`, so `""` covers a missing text), its date already rendered by
`strftime("%d.%m.%y %H:%M")`, and `broken = true` when handling the message
raises (the unexpected-shape processing error of the source). -/
structure Msg where
  id : Int
  text : String
  date : String
  broken : Bool
deriving DecidableEq, Repr

/-- A resolved channel entity: its optional public `username`, its
effective display `title` (the source falls back to the channel name when
the attribute is absent), and the messages `iter_messages` yields for it,
newest first. -/
structure Entity where
  username : Option String
  title : String
  msgs : List Msg

/-- The state of the Telethon collaborator: library availability
(`TELETHON_AVAILABLE`), whether the module-level client object exists,
connection state, whether a `connect()` attempt would succeed, the
authorization predicate, and entity resolution (`none` models the
`RPCError` of `get_entity`). -/
structure TelethonEnv where
  available : Bool
  clientSome : Bool
  connected : Bool
  connectOk : Bool
  authorized : Bool
  entities : String → Option Entity

/-- A raised Python exception, carrying its message. -/
inductive PyError where
  | runtimeError (msg : String)
deriving DecidableEq, Repr

/-- `ensure_telethon_connected` (`Парсер.py` lines 364–380): raise when the
library is missing, the client object is missing, a needed `connect()`
fails (the connection error propagates), or the user is not authorized. -/
def ensure_telethon_connected (env : TelethonEnv) : Except PyError Unit :=
  if env.available = false then
    .error (.runtimeError "Telethon не доступен. Установите: pip install telethon")
  else if env.clientSome = false then
    .error (.runtimeError "Telethon client не инициализирован")
  else if env.connected = false ∧ env.connectOk = false then
    .error (.runtimeError "connect failed")
  else if env.authorized = false then
    .error (.runtimeError "Telethon client не авторизован.")
  else .ok ()

/-- `per_channel_limit = max(50, limit * 2)` (`Парсер.py` line 496). -/
def perChannelLimit (limit : Nat) : Nat := max 50 (limit * 2)

/-- `link_template = f"https://t.me/{username}" if username else ""`. -/
def entityLinkTemplate (e : Entity) : String :=
  match e.username with
  | some u => "https://t.me/" ++ u
  | none => ""

/-- Snippet construction (`Парсер.py` lines 526–528): join up to 3 relevant
sentences, truncating to 197 characters plus an ellipsis when longer than
200. -/
def buildSnippet (rel : List String) : String :=
  let snippet := String.intercalate " " (rel.take 3)
  if 200 < snippet.length then strTake snippet 197 ++ "..." else snippet

/-- Link construction (`Парсер.py` line 530). -/
def mkLink (linkTemplate : String) (id : Int) : String :=
  if linkTemplate ≠ "" then linkTemplate ++ "/" ++ toString id else "—"

/-- The `SearchResult` appended for one matching message. -/
def mkResult (linkTemplate channelTitle : String) (m : Msg) (rel : List String) :
    SearchResult :=
  ⟨channelTitle, m.id, m.date, buildSnippet rel, mkLink linkTemplate m.id⟩

/-- The `async for message in iter_messages(...)` loop of
`search_channel_messages` (`Парсер.py` lines 514–546) for one channel.  A
`broken` message raises; the surrounding `try/except` catches the exception
at channel level, so the loop stops and the results accumulated so far are
kept.  After appending a result the loop breaks once `limit` is reached. -/
def processMessages (linkTemplate channelTitle : String) (keywords : List String)
    (limit : Nat) : List Msg → List SearchResult → List SearchResult
  | [], acc => acc
  | m :: rest, acc =>
    if m.broken then acc
    else if m.text = "" then processMessages linkTemplate channelTitle keywords limit rest acc
    else if extract_relevant_sentences m.text keywords = [] then
      processMessages linkTemplate channelTitle keywords limit rest acc
    else if limit ≤ (acc ++ [mkResult linkTemplate channelTitle m
        (extract_relevant_sentences m.text keywords)]).length then
      acc ++ [mkResult linkTemplate channelTitle m (extract_relevant_sentences m.text keywords)]
    else
      processMessages linkTemplate channelTitle keywords limit rest
        (acc ++ [mkResult linkTemplate channelTitle m (extract_relevant_sentences m.text keywords)])

/-- The `for channel in channels` loop of `search_channel_messages`
(`Парсер.py` lines 498–546): break before resolving the next channel once
`limit` results are accumulated; skip channels whose resolution fails
(`RPCError`); otherwise scan up to `per_channel_limit` messages. -/
def searchChannels (env : TelethonEnv) (keywords : List String) (limit : Nat) :
    List String → List SearchResult → List SearchResult
  | [], acc => acc
  | ch :: rest, acc =>
    if limit ≤ acc.length then acc
    else
      match env.entities ch with
      | none => searchChannels env keywords limit rest acc
      | some entity =>
        searchChannels env keywords limit rest
          (processMessages (entityLinkTemplate entity) entity.title keywords limit
            (entity.msgs.take (perChannelLimit limit)) acc)

/-- The per-channel contribution of a search run with no global limit cut:
what one channel yields on its own (resolution failure yields nothing; a
broken message ends the channel's contribution). -/
def pureMessages (linkTemplate channelTitle : String) (keywords : List String) :
    List Msg → List SearchResult
  | [] => []
  | m :: rest =>
    if m.broken then []
    else if m.text = "" then pureMessages linkTemplate channelTitle keywords rest
    else if extract_relevant_sentences m.text keywords = [] then
      pureMessages linkTemplate channelTitle keywords rest
    else
      mkResult linkTemplate channelTitle m (extract_relevant_sentences m.text keywords) ::
        pureMessages linkTemplate channelTitle keywords rest

/-- All results one channel would contribute, before the global limit is
applied. -/
def pureChannel (env : TelethonEnv) (keywords : List String) (limit : Nat)
    (ch : String) : List SearchResult :=
  match env.entities ch with
  | none => []
  | some entity =>
    pureMessages (entityLinkTemplate entity) entity.title keywords
      (entity.msgs.take (perChannelLimit limit))

/-- `search_channel_messages` (`Парсер.py` lines 471–553).  Returns the
result (or the propagated exception) together with the cache directory
afterwards.  When the Telethon library is unavailable the source logs an
error and returns an empty list before even consulting the cache. -/
def search_channel_messages (env : TelethonEnv) (store : CacheStore) (now : Int)
    (channels keywords : List String) (limit : Nat) (force_refresh : Bool) :
    Except PyError (List SearchResult) × CacheStore :=
  if env.available = false then (.ok [], store)
  else
    let cache_key := get_cache_key channels keywords limit
    let cached : Option (List SearchResult) × CacheStore :=
      if force_refresh = false then load_cached_results store now cache_key
      else (none, store)
    match cached with
    | (some results, store') => (.ok results, store')
    | (none, store') =>
      match ensure_telethon_connected env with
      | .error e => (.error e, store')
      | .ok _ =>
        let results := searchChannels env (keywords.map lowerStr) limit channels []
        (.ok results, save_cached_results store' now cache_key results)

/-- Python slicing `l[start:stop]` with the usual clamping and
negative-index-from-the-end semantics (step 1). -/
def pySlice {α : Type} (l : List α) (start stop : Int) : List α :=
  let n : Int := l.length
  let s := if start < 0 then max 0 (n + start) else min start n
  let e := if stop < 0 then max 0 (n + stop) else min stop n
  (l.take e.toNat).drop s.toNat

/-- Python `enumerate(l, start)` with an `Int` start (the formatter starts
numbering at `start_idx + 1`, which is negative for negative pages). -/
def enumFrom {α : Type} : Int → List α → List (Int × α)
  | _, [] => []
  | i, a :: rest => (i, a) :: enumFrom (i + 1) rest

/-- The page slice both formatters render: `start = (page-1)*per_page`,
`page_results = results[start:start+per_page]`, numbered from
`start + 1` (`Парсер.py` lines 570–576 and 593–604). -/
def pageEntries (results : List SearchResult) (page per_page : Int) :
    List (Int × SearchResult) :=
  let start := (page - 1) * per_page
  enumFrom (start + 1) (pySlice results start (start + per_page))

/-- The fixed no-matches message shared by both formatters (`Парсер.py`
lines 567 and 590). -/
def NO_MATCHES_TEXT : String :=
  "❌ <b>Совпадений не найдено</b>\n\nПопробуйте изменить ключевые слова или каналы."

/-- One numbered entry of the text rendering (`Парсер.py` lines 576–582). -/
def textEntry (e : Int × SearchResult) : String :=
  "<b>" ++ (toString e.1 ++ (".</b> " ++ (e.2.channel ++ ("\n📅 " ++ (e.2.date ++
    ("\n💬 " ++ (e.2.snippet ++ ("\n" ++
      ((if e.2.link ≠ "—" then "🔗 " ++ e.2.link ++ "\n" else "") ++ "\n")))))))))

/-- `format_search_results_as_text` (`Парсер.py` lines 564–584). -/
def format_search_results_as_text (results : List SearchResult) (page per_page : Int) :
    String :=
  if results = [] then NO_MATCHES_TEXT
  else
    "🔍 <b>Результаты поиска</b> (" ++ (toString results.length ++ (" найдено, стр. " ++
      (toString page ++ (")\n\n" ++
        String.join ((pageEntries results page per_page).map textEntry)))))

/-- Markdown-cell escaping of the table formatter:
`.replace("|", "\\|").replace("\n", " ")`. -/
def escapeCell (s : String) : String :=
  (s.replace "|" "\\|").replace "\n" " "

/-- One row of the table rendering (`Парсер.py` lines 604–616), with the
cell truncations applied after escaping. -/
def tableRow (e : Int × SearchResult) : String :=
  let channel := escapeCell e.2.channel
  let snippet := escapeCell e.2.snippet
  let snippet := if 50 < snippet.length then strTake snippet 47 ++ "..." else snippet
  let channel := if 20 < channel.length then strTake channel 17 ++ "..." else channel
  "| " ++ (toString e.1 ++ (" | " ++ (channel ++ (" | " ++ (e.2.date ++ (" | " ++
    (snippet ++ (" | " ++ (e.2.link ++ " |\n")))))))))

/-- `format_search_results_as_table` (`Парсер.py` lines 587–618). -/
def format_search_results_as_table (results : List SearchResult) (page per_page : Int) :
    String :=
  if results = [] then NO_MATCHES_TEXT
  else
    "📊 <b>Результаты поиска</b> (" ++ (toString results.length ++ (" найдено, стр. " ++
      (toString page ++ (")\n\n" ++
        ("| # | Канал | Дата | Текст | Ссылка |\n" ++
          ("|----|-------|------|-------|--------|\n" ++
            String.join ((pageEntries results page per_page).map tableRow)))))))

/-- `format_search_results` (`Парсер.py` lines 556–561). -/
def format_search_results (results : List SearchResult) (page per_page : Int)
    (use_table : Bool) : String :=
  if use_table then format_search_results_as_table results page per_page
  else format_search_results_as_text results page per_page

/-- An empty cache directory. -/
def emptyStore : CacheStore := fun _ => none

/-- Client state with the Telethon library missing (`TELETHON_AVAILABLE = False`). -/
def envUnavailable : TelethonEnv :=
  ⟨false, false, false, false, false, fun _ => none⟩

/-- Client state with the library present and connected but the user
session not authorized. -/
def envUnauthorized : TelethonEnv :=
  ⟨true, true, true, true, false, fun _ => none⟩

/-- A message whose text contains a matching sentence. -/
def msgOk1 : Msg := ⟨1, "python is great here", "01.01.25 10:00", false⟩

/-- A message whose handling raises a processing error. -/
def msgBroken : Msg := ⟨2, "python is great there", "01.01.25 10:01", true⟩

/-- A later matching message in the same channel, behind the broken one. -/
def msgOk3 : Msg := ⟨3, "python is great again", "01.01.25 10:02", false⟩

/-- A channel whose second message raises during processing. -/
def entBroken : Entity := ⟨some "c", "C", [msgOk1, msgBroken, msgOk3]⟩

/-- A healthy client whose only channel is `entBroken`. -/
def envBroken : TelethonEnv :=
  ⟨true, true, true, true, true, fun s => if s = "@c" then some entBroken else none⟩

/-- Messages and channels for a two-channel search stub. -/
def wMsg1 : Msg := ⟨10, "python is wonderful", "02.01.25 09:00", false⟩

/-- Second matching message of the first stub channel. -/
def wMsg2 : Msg := ⟨11, "python again is fine", "02.01.25 09:05", false⟩

/-- Matching message of the second stub channel. -/
def wMsg3 : Msg := ⟨20, "python also lives here", "02.01.25 09:10", false⟩

/-- First stub channel, with a public username. -/
def wEntA : Entity := ⟨some "a", "A", [wMsg1, wMsg2]⟩

/-- Second stub channel, private (no username). -/
def wEntB : Entity := ⟨none, "B", [wMsg3]⟩

/-- A healthy client with two resolvable channels. -/
def envTwoChannels : TelethonEnv :=
  ⟨true, true, true, true, true,
    fun s => if s = "@a" then some wEntA else if s = "@b" then some wEntB else none⟩

/-- Twelve results, as in the pagination example of the specification. -/
def c4Results : List SearchResult :=
  (List.range 12).map fun i => ⟨"ch", (i : Int) + 1, "d", "snip", "—"⟩

/-- Loading a result dictionary back yields the original result, field by
field. -/
theorem SearchResult.ofRecord_toRecord (r : SearchResult) :
    SearchResult.ofRecord r.toRecord = r := rfl

/-- Claim C6: for `len(keyword) <= 6` and `len(word) <= 8`, a Levenshtein
distance of at most 2 between the lower-cased strings makes
`fuzzy_match_word` return true, whatever the earlier checks do. -/
theorem c6_edit_distance_match (word keyword : String)
    (hk : keyword.length ≤ 6) (hw : word.length ≤ 8)
    (hd : levenshtein_distance (lowerStr word).data (lowerStr keyword).data ≤ 2) :
    fuzzy_match_word word keyword = true := by
  simp only [fuzzy_match_word]
  rw [decide_eq_true hd]
  rw [if_pos (show (decide (keyword.length ≤ 6) && decide (word.length ≤ 8)) = true by
    simp [hk, hw])]
  simp

/-- Witness for C6 at the the spec's example pair. -/
theorem c6_witness :
    levenshtein_distance (lowerStr "pythom").data (lowerStr "python").data ≤ 2 ∧
      fuzzy_match_word "pythom" "python" = true :=
  ⟨by decide, c6_edit_distance_match "pythom" "python" (by decide) (by decide) (by decide)⟩

/-- Claim C7: with no exact, substring or suffix relation, and either a
length out of the edit-distance bounds or a distance above 2,
`fuzzy_match_word` returns false. -/
theorem c7_no_relation_no_match (word keyword : String)
    (h1 : lowerStr word ≠ lowerStr keyword)
    (h2 : containsSub (lowerStr keyword).data (lowerStr word).data = false)
    (h3 : suffixHeuristic (lowerStr word) (lowerStr keyword) = false)
    (h4 : 6 < keyword.length ∨ 8 < word.length ∨
      2 < levenshtein_distance (lowerStr word).data (lowerStr keyword).data) :
    fuzzy_match_word word keyword = false := by
  unfold fuzzy_match_word
  rw [if_neg h1, if_neg (by simp [h2]), if_neg (by simp [h3])]
  rcases h4 with h | h | h
  · rw [if_neg (by simp; omega)]
  · rw [if_neg (by simp; omega)]
  · split
    · simpa using Nat.not_le_of_lt h
    · rfl

/-- Witness for C7 at the spec's example pair `("banana", "python")`. -/
theorem c7_witness :
    lowerStr "banana" ≠ lowerStr "python" ∧
      fuzzy_match_word "banana" "python" = false :=
  ⟨by decide, c7_no_relation_no_match "banana" "python" (by decide) (by decide)
    (by decide) (Or.inr (Or.inr (by decide)))⟩

/-- Claim C8: storing a result set and loading the same key within the TTL
(and with no intervening write) returns the set unchanged, field by field
and in order. -/
theorem c8_store_then_load (store : CacheStore) (now now' : Int) (key : String)
    (r : List SearchResult) (h : now' - now ≤ CACHE_TTL) :
    (load_cached_results (save_cached_results store now key r) now' key).1 = some r := by
  have hkey : save_cached_results store now key r key
      = some ⟨now, r.map SearchResult.toRecord⟩ := if_pos rfl
  have hfresh : ¬ CACHE_TTL < now' - now := by omega
  simp [load_cached_results, hkey, hfresh, List.map_map, Function.comp_def,
    SearchResult.ofRecord_toRecord]

/-- Witness for C8: an immediate load returns the stored record. -/
theorem c8_witness :
    (3 : Int) - 3 ≤ CACHE_TTL ∧
      (load_cached_results
          (save_cached_results emptyStore 3 "k" [⟨"c", 1, "d", "s", "—"⟩]) 3 "k").1
        = some [⟨"c", 1, "d", "s", "—"⟩] :=
  ⟨by decide, c8_store_then_load emptyStore 3 3 "k" [⟨"c", 1, "d", "s", "—"⟩] (by decide)⟩

/-- Claim C9: an entry written at time `T` loads up to `T + TTL`; any later
load returns `none` and deletes the backing record. -/
theorem c9_ttl_expiry (store : CacheStore) (T t : Int) (key : String)
    (r : List SearchResult) :
    (T + CACHE_TTL < t →
      (load_cached_results (save_cached_results store T key r) t key).1 = none ∧
        (load_cached_results (save_cached_results store T key r) t key).2 key = none)
    ∧ (t - T ≤ CACHE_TTL →
        (load_cached_results (save_cached_results store T key r) t key).1 = some r) := by
  have hkey : save_cached_results store T key r key
      = some ⟨T, r.map SearchResult.toRecord⟩ := if_pos rfl
  constructor
  · intro h
    have hstale : CACHE_TTL < t - T := by omega
    simp [load_cached_results, hkey, hstale]
  · intro h
    have hfresh : ¬ CACHE_TTL < t - T := by omega
    simp [load_cached_results, hkey, hfresh, List.map_map, Function.comp_def,
      SearchResult.ofRecord_toRecord]

/-- Witness for C9: a load at `T + TTL + 1` misses and the record is gone. -/
theorem c9_witness :
    (load_cached_results
        (save_cached_results emptyStore 0 "k" [⟨"c", 1, "d", "s", "—"⟩]) 3601 "k").1 = none ∧
      (load_cached_results
        (save_cached_results emptyStore 0 "k" [⟨"c", 1, "d", "s", "—"⟩]) 3601 "k").2 "k" = none :=
  (c9_ttl_expiry emptyStore 0 3601 "k" [⟨"c", 1, "d", "s", "—"⟩]).1 (by decide)

/-- The loop of `validate_keywords` is strip, then drop the short, then
truncate the long, preserving order. -/
theorem validateKeywordsGo_eq (l : List String) :
    validateKeywordsGo l
      = ((l.map pyStrip).filter fun k => 2 ≤ k.length).map truncateKw := by
  induction l with
  | nil => rfl
  | cons kw rest ih =>
    simp only [validateKeywordsGo, List.map_cons, List.filter_cons]
    by_cases h : (pyStrip kw).length < 2
    · rw [if_pos h, if_neg (by simpa using by omega)]
      exact ih
    · rw [if_neg h, if_pos (by simp; omega)]
      simp [ih]

/-- A keyword of 60 characters, for exercising the truncation branch. -/
def kwLong : String := ⟨List.replicate 60 'x'⟩

/-- Claim C10: `validate_keywords` returns at most 10 keywords, each of
length 2–50; it equals stripping every keyword, dropping those shorter
than 2, truncating those longer than 50 to their first 50 characters, and
keeping the first 10 survivors in input order. -/
theorem c10_validate_keywords (keywords : List String) :
    (validate_keywords keywords).length ≤ 10
    ∧ (∀ k, k ∈ validate_keywords keywords → 2 ≤ k.length ∧ k.length ≤ 50)
    ∧ validate_keywords keywords
        = (((keywords.map pyStrip).filter fun k => 2 ≤ k.length).map truncateKw).take 10 := by
  have heq : validate_keywords keywords
      = (((keywords.map pyStrip).filter fun k => 2 ≤ k.length).map truncateKw).take 10 := by
    unfold validate_keywords
    split
    · rename_i h
      subst h
      rfl
    · rw [validateKeywordsGo_eq]
  refine ⟨?_, ?_, heq⟩
  · rw [heq]
    exact List.length_take_le 10 _
  · intro k hk
    rw [heq] at hk
    obtain ⟨k', hk'', hkeq⟩ := List.mem_map.mp (List.mem_of_mem_take hk)
    have h2 : 2 ≤ k'.length := by simpa using List.of_mem_filter hk''
    subst hkeq
    unfold truncateKw
    split
    · rename_i h50
      have hmin : (strTake k' 50).length = min 50 k'.length :=
        List.length_take 50 k'.data
      rw [hmin]
      omega
    · omega

/-- Witness for C10: a surviving keyword obeys the length bounds. -/
theorem c10_witness : 2 ≤ String.length "hi" ∧ String.length "hi" ≤ 50 :=
  (c10_validate_keywords ["a", "  hi  ", kwLong]).2.1 "hi" (by decide)

/-- Claim C2 counterexample: the sentence `"python hey"` matches the
keyword and normalizes to exactly 10 characters, yet the extractor drops
it — the code keeps relevant sentences only when strictly longer than 10
characters, so a 10-character sentence is not kept as the claim states. -/
theorem c2_counterexample :
    extract_relevant_sentences "python hey" ["python"] = []
    ∧ sentenceHasMatch "python hey" ["python"] = true
    ∧ (normalizeWs "python hey").length = 10 :=
  ⟨by decide, by decide, by decide⟩

/-- Every sentence the extractor returns is strictly longer than 10
characters after normalization. -/
theorem extract_mem_length {text : String} {keywords : List String} {c : String}
    (hc : c ∈ extract_relevant_sentences text keywords) : 10 < c.length := by
  unfold extract_relevant_sentences at hc
  split at hc
  · simp at hc
  · obtain ⟨a, _, hfa⟩ := List.mem_filterMap.mp hc
    split at hfa
    · exact absurd hfa (by simp)
    · split at hfa
      · simp only [keepSentence] at hfa
        split at hfa
        · rename_i hcond
          injection hfa with h
          subst h
          exact hcond.2
        · exact absurd hfa (by simp)
      · exact absurd hfa (by simp)

/-- A sentence with a matching token has a token at all, hence a non-empty
lower-cased stripped form. -/
theorem sentenceHasMatch_stripped_ne {s : String} {kws : List String}
    (h : sentenceHasMatch s kws = true) : pyStrip (lowerStr s) ≠ "" := by
  intro he
  unfold sentenceHasMatch sentenceTokens at h
  rw [he] at h
  have hd : ("" : String).data = [] := rfl
  rw [hd] at h
  simp [runsAux] at h

/-- A sentence with a matching token implies a non-empty keyword list. -/
theorem sentenceHasMatch_keywords_ne {s : String} {kws : List String}
    (h : sentenceHasMatch s kws = true) : kws ≠ [] := by
  rintro rfl
  simp [sentenceHasMatch] at h

/-- Claim C2 (amended): a sentence of the text containing a token that
fuzzy-matches some keyword appears (normalized) in the extractor output iff
its whitespace-normalized form is strictly longer than 10 characters; a
relevant normalized sentence of exactly 10 characters is discarded. -/
theorem c2_amended_strict_threshold (text : String) (keywords : List String)
    (s : String) (hs : s ∈ splitSentences text)
    (hrel : sentenceHasMatch s keywords = true) :
    normalizeWs s ∈ extract_relevant_sentences text keywords ↔
      10 < (normalizeWs s).length := by
  constructor
  · exact fun h => extract_mem_length h
  · intro hlen
    have hkw : keywords ≠ [] := sentenceHasMatch_keywords_ne hrel
    have htext : text ≠ "" := by
      rintro rfl
      have hsplit : splitSentences "" = [""] := rfl
      rw [hsplit] at hs
      have hse : s = "" := by simpa using hs
      subst hse
      exact (sentenceHasMatch_stripped_ne hrel) rfl
    unfold extract_relevant_sentences
    rw [if_neg (not_or.mpr ⟨htext, hkw⟩)]
    apply List.mem_filterMap.mpr
    refine ⟨s, hs, ?_⟩
    rw [if_neg (sentenceHasMatch_stripped_ne hrel), if_pos hrel]
    simp only [keepSentence]
    have hne : normalizeWs s ≠ "" := by
      intro hne
      rw [hne] at hlen
      exact absurd hlen (by decide)
    rw [if_pos ⟨hne, hlen⟩]

/-- Witness for C2 (amended) on a 16-character relevant sentence. -/
theorem c2_witness :
    normalizeWs "python is great." ∈
        extract_relevant_sentences "python is great. hi" ["python"] ↔
      10 < (normalizeWs "python is great.").length :=
  c2_amended_strict_threshold "python is great. hi" ["python"] "python is great."
    (by decide) (by decide)

/-- Claim C3 counterexample: in a channel whose messages are a match, a
message that raises during processing, and another match, the search
returns only the result found before the failure — the message after the
failing one is never examined, though the claim says it is, and its
matching result is absent. -/
theorem c3_counterexample :
    (search_channel_messages envBroken emptyStore 0 ["@c"] ["python"] 10 true).1
      = Except.ok [⟨"C", 1, "01.01.25 10:00", "python is great here", "https://t.me/c/1"⟩]
    ∧ sentenceHasMatch "python is great again" ["python"] = true :=
  ⟨rfl, by decide⟩

/-- Claim C3 (amended): a processing error on one message aborts the
remainder of that channel's message loop: results accumulated before the
failure are kept (and the search goes on with the next channel), but the
messages after the failing one in the same channel are not examined. -/
theorem c3_amended_channel_abort (linkTemplate channelTitle : String)
    (keywords : List String) (limit : Nat) (pre : List Msg) (m : Msg)
    (rest : List Msg) (acc : List SearchResult) (hb : m.broken = true) :
    processMessages linkTemplate channelTitle keywords limit (pre ++ m :: rest) acc
      = processMessages linkTemplate channelTitle keywords limit pre acc := by
  induction pre generalizing acc with
  | nil => simp [processMessages, hb]
  | cons p ps ih =>
    simp only [List.cons_append, processMessages]
    by_cases h1 : p.broken = true
    · simp [h1]
    · by_cases h2 : p.text = ""
      · simp [h1, h2, ih]
      · by_cases h3 : extract_relevant_sentences p.text keywords = []
        · simp [h1, h2, h3, ih]
        · by_cases h4 : limit ≤ acc.length + 1
          · simp [h1, h2, h3, h4]
          · simp [h1, h2, h3, h4, ih]

/-- Witness for C3 (amended) on the concrete broken channel. -/
theorem c3_witness :
    processMessages "https://t.me/c" "C" ["python"] 10 ([msgOk1] ++ msgBroken :: [msgOk3]) []
      = processMessages "https://t.me/c" "C" ["python"] 10 [msgOk1] [] :=
  c3_amended_channel_abort "https://t.me/c" "C" ["python"] 10 [msgOk1] msgBroken [msgOk3] []
    rfl

/-- Claim C1 counterexample: with the Telethon library unavailable and an
empty cache (so the call cannot hit the cache, and `force_refresh` is true
besides), the search returns an empty `ok` result — no error propagates to
the caller, contradicting the claim that an unavailable client always
surfaces as an error. -/
theorem c1_counterexample :
    search_channel_messages envUnavailable emptyStore 0 ["@chan"] ["python"] 5 true
      = (Except.ok [], emptyStore) := rfl

/-- With the library present and the client object built, a failed connect
or a missing authorization makes `ensure_telethon_connected` raise. -/
theorem ensure_fails (env : TelethonEnv) (havail : env.available = true)
    (hclient : env.clientSome = true)
    (hbad : (env.connected = false ∧ env.connectOk = false) ∨ env.authorized = false) :
    ∃ e, ensure_telethon_connected env = .error e := by
  unfold ensure_telethon_connected
  rw [if_neg (by simp [havail]), if_neg (by simp [hclient])]
  rcases hbad with ⟨h1, h2⟩ | h3
  · rw [if_pos ⟨h1, h2⟩]
    exact ⟨_, rfl⟩
  · by_cases hc : env.connected = false ∧ env.connectOk = false
    · rw [if_pos hc]
      exact ⟨_, rfl⟩
    · rw [if_neg hc, if_pos h3]
      exact ⟨_, rfl⟩

/-- Claim C1 (amended): when the Telethon library is importable and the
client object exists, a call that does not hit the cache (miss or forced
refresh) with a client that cannot connect or is not authorized fails with
an error that propagates to the caller; only the library-unavailable case
short-circuits to a silent empty list. -/
theorem c1_amended_auth_errors_propagate (env : TelethonEnv) (store : CacheStore)
    (now : Int) (channels keywords : List String) (limit : Nat) (force_refresh : Bool)
    (havail : env.available = true) (hclient : env.clientSome = true)
    (hbad : (env.connected = false ∧ env.connectOk = false) ∨ env.authorized = false)
    (hmiss : force_refresh = true ∨
      (load_cached_results store now (get_cache_key channels keywords limit)).1 = none) :
    ∃ e store', search_channel_messages env store now channels keywords limit force_refresh
      = (Except.error e, store') := by
  obtain ⟨e, he⟩ := ensure_fails env havail hclient hbad
  simp only [search_channel_messages, havail]
  rw [if_neg (show ¬(true = false) by simp)]
  by_cases hf : force_refresh = true
  · subst hf
    rw [if_neg (show ¬(true = false) by simp)]
    refine ⟨e, store, ?_⟩
    simp [he]
  · have hf' : force_refresh = false := by
      cases force_refresh
      · rfl
      · exact absurd rfl hf
    subst hf'
    rcases hL : load_cached_results store now (get_cache_key channels keywords limit)
      with ⟨v, store2⟩
    rw [if_pos rfl]
    have hv : v = none := by
      rcases hmiss with h | h
      · exact absurd h (by simp)
      · rw [hL] at h
        exact h
    subst hv
    refine ⟨e, store2, ?_⟩
    simp [he]

/-- Witness for C1 (amended): an unauthorized client on a cache-missing
call yields a propagated error. -/
theorem c1_witness :
    ∃ e store', search_channel_messages envUnauthorized emptyStore 0 ["@chan"] ["python"] 5 true
      = (Except.error e, store') :=
  c1_amended_auth_errors_propagate envUnauthorized emptyStore 0 ["@chan"] ["python"] 5 true
    rfl rfl (Or.inr rfl) (Or.inl rfl)

/-- For non-negative indices the Python slice `l[start:start+per]` is plain
drop-then-take. -/
theorem pySlice_nonneg {α : Type} (l : List α) (start per : Int)
    (hs : 0 ≤ start) (hp : 0 ≤ per) :
    pySlice l start (start + per) = (l.drop start.toNat).take per.toNat := by
  simp only [pySlice]
  rw [if_neg (by omega), if_neg (by omega)]
  have h1 : (min start (l.length : Int)).toNat = min start.toNat l.length := by omega
  have h2 : (min (start + per) (l.length : Int)).toNat
      = min (start.toNat + per.toNat) l.length := by omega
  rw [h1, h2, List.drop_take]
  rcases Nat.le_total start.toNat l.length with h | h
  · rw [Nat.min_eq_left h]
    refine List.take_eq_take.mpr ?_
    simp only [List.length_drop]
    omega
  · rw [Nat.min_eq_right h]
    simp [List.drop_length, List.drop_of_length_le h]

/-- A non-empty result list never renders as the no-matches message in
text mode (the headers differ in their first character). -/
theorem format_text_ne_no_matches (results : List SearchResult) (page per_page : Int)
    (hne : results ≠ []) :
    format_search_results_as_text results page per_page ≠ NO_MATCHES_TEXT := by
  unfold format_search_results_as_text
  rw [if_neg hne]
  intro h
  have hd := congrArg String.data h
  rw [String.data_append] at hd
  have hh := congrArg List.head? hd
  rw [List.head?_append] at hh
  rw [show ("🔍 <b>Результаты поиска</b> (" : String).data.head? = some '🔍' from rfl] at hh
  rw [show (Option.some '🔍').or _ = some '🔍' from rfl] at hh
  rw [show NO_MATCHES_TEXT.data.head? = some '❌' from rfl] at hh
  simp at hh

/-- A non-empty result list never renders as the no-matches message in
table mode. -/
theorem format_table_ne_no_matches (results : List SearchResult) (page per_page : Int)
    (hne : results ≠ []) :
    format_search_results_as_table results page per_page ≠ NO_MATCHES_TEXT := by
  unfold format_search_results_as_table
  rw [if_neg hne]
  intro h
  have hd := congrArg String.data h
  rw [String.data_append] at hd
  have hh := congrArg List.head? hd
  rw [List.head?_append] at hh
  rw [show ("📊 <b>Результаты поиска</b> (" : String).data.head? = some '📊' from rfl] at hh
  rw [show (Option.some '📊').or _ = some '📊' from rfl] at hh
  rw [show NO_MATCHES_TEXT.data.head? = some '❌' from rfl] at hh
  simp at hh

/-- Claim C4 counterexample: with 12 results and `per_page = 5`, the
out-of-range page `-1` does not yield a rendering with zero entries — the
Python negative slice wraps around and renders five entries. -/
theorem c4_counterexample :
    pageEntries c4Results (-1) 5 ≠ [] ∧ (pageEntries c4Results (-1) 5).length = 5 :=
  ⟨by decide, by decide⟩

/-- Claim C4 (amended): for `page ≥ 1` and `per_page ≥ 0` the formatter
renders exactly the slice from `(page-1)*per_page`, numbered from
`(page-1)*per_page + 1`; pages past the last and page 0 yield zero
entries; the fixed no-matches message appears iff the input is empty.
Pages below 0 are excluded: Python's negative slicing makes them render
entries counted from the end of the result list. -/
theorem c4_amended_pagination (results : List SearchResult) (page per_page : Int)
    (hp : 1 ≤ page) (hq : 0 ≤ per_page) :
    pageEntries results page per_page
      = enumFrom ((page - 1) * per_page + 1)
          ((results.drop ((page - 1) * per_page).toNat).take per_page.toNat)
    ∧ ((results.length : Int) ≤ (page - 1) * per_page →
        pageEntries results page per_page = [])
    ∧ (∀ q : Int, pageEntries results 0 q = [])
    ∧ (format_search_results results page per_page true = NO_MATCHES_TEXT ↔ results = [])
    ∧ (format_search_results results page per_page false = NO_MATCHES_TEXT ↔ results = []) := by
  have hstart : 0 ≤ (page - 1) * per_page := mul_nonneg (by omega) hq
  have hmain : pageEntries results page per_page
      = enumFrom ((page - 1) * per_page + 1)
          ((results.drop ((page - 1) * per_page).toNat).take per_page.toNat) := by
    simp only [pageEntries]
    rw [pySlice_nonneg results _ _ hstart hq]
  refine ⟨hmain, ?_, ?_, ?_, ?_⟩
  · intro hlen
    rw [hmain, List.drop_of_length_le (by omega)]
    simp [enumFrom]
  · intro q
    simp only [pageEntries, pySlice]
    rw [show ((0 : Int) - 1) * q + q = 0 from by ring]
    rw [show (if (0 : Int) < 0 then max 0 ((results.length : Int) + 0)
        else min 0 (results.length : Int)).toNat = 0 from by
      rw [if_neg (by omega)]
      omega]
    simp [enumFrom]
  · rw [show format_search_results results page per_page true
        = format_search_results_as_table results page per_page from rfl]
    constructor
    · intro h
      by_contra hne
      exact format_table_ne_no_matches results page per_page hne h
    · rintro rfl
      rfl
  · rw [show format_search_results results page per_page false
        = format_search_results_as_text results page per_page from rfl]
    constructor
    · intro h
      by_contra hne
      exact format_text_ne_no_matches results page per_page hne h
    · rintro rfl
      rfl

/-- Witness for C4 (amended) at the spec's example: 12 results,
`per_page = 5`, `page = 3` renders the slice of indices 10–11 numbered
from 11. -/
theorem c4_witness :
    pageEntries c4Results 3 5
      = enumFrom (((3 : Int) - 1) * 5 + 1)
          ((c4Results.drop (((3 : Int) - 1) * 5).toNat).take ((5 : Int)).toNat) :=
  (c4_amended_pagination c4Results 3 5 (by norm_num) (by norm_num)).1

/-- Truncating to `n` before appending does not change a truncation to `n`
of the whole. -/
theorem take_take_append {α : Type} (n : Nat) (a b : List α) :
    (List.take n a ++ b).take n = (a ++ b).take n := by
  rw [List.take_append_eq_append_take, List.take_append_eq_append_take, List.take_take]
  simp only [List.length_take, Nat.min_self]
  have h : n - min n a.length = n - a.length := by omega
  rw [h]


/-- The limited message loop produces the `limit`-truncation of the
unlimited per-channel results appended to the accumulator. -/
theorem processMessages_eq_take (lt ct : String) (kws : List String) (limit : Nat)
    (msgs : List Msg) (acc : List SearchResult) (h : acc.length < limit) :
    processMessages lt ct kws limit msgs acc
      = (acc ++ pureMessages lt ct kws msgs).take limit := by
  induction msgs generalizing acc with
  | nil =>
    simp only [processMessages, pureMessages, List.append_nil]
    rw [List.take_of_length_le (Nat.le_of_lt h)]
  | cons m rest ih =>
    simp only [processMessages, pureMessages]
    by_cases h1 : m.broken = true
    · rw [if_pos h1, if_pos h1, List.append_nil,
        List.take_of_length_le (Nat.le_of_lt h)]
    · rw [if_neg h1, if_neg h1]
      by_cases h2 : m.text = ""
      · rw [if_pos h2, if_pos h2]
        exact ih acc h
      · rw [if_neg h2, if_neg h2]
        by_cases h3 : extract_relevant_sentences m.text kws = []
        · rw [if_pos h3, if_pos h3]
          exact ih acc h
        · rw [if_neg h3, if_neg h3]
          by_cases h4 : limit ≤ (acc ++ [mkResult lt ct m
              (extract_relevant_sentences m.text kws)]).length
          · rw [if_pos h4]
            have hlen : (acc ++ [mkResult lt ct m
                (extract_relevant_sentences m.text kws)]).length = limit := by
              simp only [List.length_append, List.length_cons, List.length_nil] at h4 ⊢
              omega
            rw [show acc ++ mkResult lt ct m (extract_relevant_sentences m.text kws) ::
                pureMessages lt ct kws rest
              = (acc ++ [mkResult lt ct m (extract_relevant_sentences m.text kws)]) ++
                pureMessages lt ct kws rest from by simp]
            rw [List.take_left' hlen]
          · rw [if_neg h4]
            rw [ih _ (by simp only [List.length_append, List.length_cons,
              List.length_nil] at h4 ⊢; omega)]
            congr 1
            simp

/-- Channel-loop step for an unresolvable channel: skip it. -/
theorem searchChannels_cons_none (env : TelethonEnv) (kws : List String) (limit : Nat)
    (ch : String) (rest : List String) (acc : List SearchResult)
    (hl : ¬ limit ≤ acc.length) (he : env.entities ch = none) :
    searchChannels env kws limit (ch :: rest) acc
      = searchChannels env kws limit rest acc := by
  simp only [searchChannels]
  rw [if_neg hl, he]

/-- Channel-loop step for a resolvable channel: scan its messages up to the
per-channel budget, then continue with the remaining channels. -/
theorem searchChannels_cons_some (env : TelethonEnv) (kws : List String) (limit : Nat)
    (ch : String) (rest : List String) (acc : List SearchResult) (entity : Entity)
    (hl : ¬ limit ≤ acc.length) (he : env.entities ch = some entity) :
    searchChannels env kws limit (ch :: rest) acc
      = searchChannels env kws limit rest
          (processMessages (entityLinkTemplate entity) entity.title kws limit
            (entity.msgs.take (perChannelLimit limit)) acc) := by
  simp only [searchChannels]
  rw [if_neg hl, he]

/-- The channel loop produces the `limit`-truncation of the concatenation
of the per-channel unlimited results, appended to the accumulator. -/
theorem searchChannels_eq_take (env : TelethonEnv) (kws : List String) (limit : Nat)
    (chs : List String) (acc : List SearchResult) (h : acc.length ≤ limit) :
    searchChannels env kws limit chs acc
      = (acc ++ chs.flatMap (pureChannel env kws limit)).take limit := by
  induction chs generalizing acc with
  | nil =>
    simp only [searchChannels, List.flatMap_nil, List.append_nil]
    rw [List.take_of_length_le h]
  | cons ch rest ih =>
    by_cases hl : limit ≤ acc.length
    · have hstep : searchChannels env kws limit (ch :: rest) acc = acc := by
        simp only [searchChannels]
        rw [if_pos hl]
      rw [hstep, List.take_append_eq_append_take, Nat.sub_eq_zero_of_le hl,
        List.take_zero, List.append_nil, List.take_of_length_le h]
    · cases he : env.entities ch with
      | none =>
        rw [searchChannels_cons_none env kws limit ch rest acc hl he, ih acc h]
        have hp : pureChannel env kws limit ch = [] := by simp [pureChannel, he]
        rw [List.flatMap_cons, hp, List.nil_append]
      | some entity =>
        rw [searchChannels_cons_some env kws limit ch rest acc entity hl he]
        rw [processMessages_eq_take _ _ _ _ _ _ (by omega)]
        rw [ih _ (List.length_take_le limit _)]
        rw [take_take_append, List.append_assoc]
        have hp : pureChannel env kws limit ch
            = pureMessages (entityLinkTemplate entity) entity.title kws
                (entity.msgs.take (perChannelLimit limit)) := by
          simp [pureChannel, he]
        rw [List.flatMap_cons, hp]

/-- Claim C5: on a fresh (forced) search with a working client, the search
returns exactly the first `limit` results of the channel-by-channel
concatenation (channel input order, then message order as yielded by the
source) — in particular at most `limit` results — and once the accumulator
holds `limit` results the channel loop returns immediately, never touching
the remaining channels. -/
theorem c5_global_limit (env : TelethonEnv) (store : CacheStore) (now : Int)
    (channels keywords : List String) (limit : Nat)
    (henv : ensure_telethon_connected env = Except.ok ()) :
    (search_channel_messages env store now channels keywords limit true).1
      = Except.ok ((channels.flatMap
          (pureChannel env (keywords.map lowerStr) limit)).take limit)
    ∧ (∀ results,
        (search_channel_messages env store now channels keywords limit true).1
          = Except.ok results → results.length ≤ limit)
    ∧ (∀ acc chs, limit ≤ acc.length →
        searchChannels env (keywords.map lowerStr) limit chs acc = acc) := by
  have havail : env.available = true := by
    by_contra hf
    have hfalse : env.available = false := by
      cases henvb : env.available
      · rfl
      · exact absurd henvb hf
    unfold ensure_telethon_connected at henv
    rw [if_pos hfalse] at henv
    exact absurd henv (by simp)
  have hmain : (search_channel_messages env store now channels keywords limit true).1
      = Except.ok ((channels.flatMap
          (pureChannel env (keywords.map lowerStr) limit)).take limit) := by
    simp only [search_channel_messages, havail]
    rw [if_neg (show ¬(true = false) by simp)]
    rw [if_neg (show ¬(true = false) by simp)]
    rw [henv]
    rw [searchChannels_eq_take env _ limit channels [] (Nat.zero_le limit)]
    rw [List.nil_append]
  refine ⟨hmain, ?_, ?_⟩
  · intro results hres
    rw [hmain] at hres
    injection hres with hres
    rw [← hres]
    exact List.length_take_le limit _
  · intro acc chs hl
    cases chs with
    | nil => rfl
    | cons c cs =>
      simp only [searchChannels]
      rw [if_pos hl]

/-- Witness for C5 on a two-channel stub with `limit = 1`: the search
yields the 1-truncation of the concatenated per-channel results. -/
theorem c5_witness :
    (search_channel_messages envTwoChannels emptyStore 0 ["@a", "@b"] ["python"] 1 true).1
      = Except.ok ((["@a", "@b"].flatMap
          (pureChannel envTwoChannels (["python"].map lowerStr) 1)).take 1) :=
  (c5_global_limit envTwoChannels emptyStore 0 ["@a", "@b"] ["python"] 1 rfl).1
